import Mathlib

/-!
# API gateway (`services/api-service/main.go`) and its localized variant

A shallow embedding of the gateway's request handling.

* Go strings are Lean `String`s; the prefixes the code cuts off are ASCII, so
  byte offsets and character offsets agree on them.
* `http.Header` is a finite map from key to value list (`AList`).
* The outside world is an explicit `Env`: the clock read by `time.Now()`, the
  error result of `http.NewRequest`, and the result of `client.Do`.
* A handler turns a request into an `Outcome`: the state of its
  `http.ResponseWriter` and the outbound requests it handed to `client.Do`.
  A panic inside `WriteHeader` is a flag of the writer.
* The default `ServeMux` answers a request itself (bad request, redirect to
  the cleaned path, not found) or hands it to the handler of the longest
  matching pattern.
* `json.NewEncoder(w).Encode(v)` is recorded as a chunk holding the value `v`;
  `w.Write(b)` and `io.Copy(w, body)` as a chunk holding the bytes.
-/

namespace Gateway

/-! ## Strings -/

/-- Go `strings.HasPrefix(s, pre)`. -/
def hasPrefix (s pre : String) : Bool :=
  pre.data.isPrefixOf s.data

/-- Go `strings.TrimPrefix(s, pre)`. -/
def trimPrefix (s pre : String) : String :=
  if hasPrefix s pre then ⟨s.data.drop pre.data.length⟩ else s

/-- Go slice expression `s[n:]`; `none` is the runtime panic for `n > len(s)`. -/
def sliceFrom (s : String) (n : Nat) : Option String :=
  if n ≤ s.data.length then some ⟨s.data.drop n⟩ else none

/-- The elements of a path: the pieces between its slashes. -/
def splitSlash : List Char → List (List Char)
  | [] => [[]]
  | c :: cs =>
    match splitSlash cs with
    | [] => [[]]
    | seg :: rest => if c = '/' then [] :: seg :: rest else (c :: seg) :: rest

/-- One element of a rooted path met by Go `path.Clean`: an empty element and
`.` are dropped, `..` removes the element before it, any other is kept. -/
def cleanStep (kept : List (List Char)) (seg : List Char) : List (List Char) :=
  if seg = [] ∨ seg = ['.'] then kept
  else if seg = ['.', '.'] then kept.dropLast
  else kept ++ [seg]

/-- Go `path.Clean` on a rooted path. -/
def pathClean (p : List Char) : List Char :=
  '/' :: List.intercalate ['/'] ((splitSlash p).foldl cleanStep [])

/-- Go `cleanPath` of `net/http`: the canonical form of a request path, which
keeps a trailing slash. -/
def cleanPath (p : String) : String :=
  if p = "" then "/"
  else
    let rooted := if p.data.head? = some '/' then p.data else '/' :: p.data
    let np := pathClean rooted
    if rooted.getLast? = some '/' ∧ np ≠ ['/'] then ⟨np ++ ['/']⟩ else ⟨np⟩

/-- Go `fmt.Sprintf` with the format `{"error":"%s"}`. -/
def sprintfError (msg : String) : String :=
  "\x7b\"error\":\"" ++ msg ++ "\"\x7d"

/-! ## Data model -/

/-- Go `http.Header`: a map from header key to its list of values. -/
abbrev Header := AList (fun _ : String => List String)

/-- Go `Header.Get(key)`: the first value stored under `key`, or `""`. -/
def Header.get (h : Header) (key : String) : String :=
  match h.lookup key with
  | some (v :: _) => v
  | _ => ""

/-- The loop `for k, v := range src { dst[k] = v }`. -/
def copyHeaders (src dst : Header) : Header :=
  src.entries.foldl (fun acc e => acc.insert e.1 e.2) dst

structure HealthResponse where
  Status : String
  Service : String
  Timestamp : Int
  deriving DecidableEq, Repr

structure Post where
  ID : Int
  Title : String
  Content : String
  deriving DecidableEq, Repr

/-- The inbound `*http.Request`, as far as the handlers read it: `r.Method`,
`r.URL.Path`, `r.Header`, and the bytes `ioutil.ReadAll(r.Body)` yields. -/
structure Request where
  method : String
  path : String
  header : Header
  body : String

/-- The request built by `http.NewRequest` and handed to `client.Do`; `url` is
the string `http.NewRequest` was given. -/
structure OutboundRequest where
  method : String
  url : String
  header : Header
  body : String
  deriving DecidableEq

/-- What `client.Do` returns when it returns no error: the final response, after
the client consumed interim responses and followed redirects. -/
structure BackendResponse where
  statusCode : Nat
  body : String
  deriving DecidableEq, Repr

/-- The world outside the handler. -/
structure Env where
  /-- The value of `time.Now().Unix()`. -/
  now : Int
  /-- Whether `http.NewRequest(method, url, _)` returns an error. -/
  newRequestErr : String → String → Bool
  /-- The result of `client.Do(req)`; `none` is a transport error. -/
  roundTrip : OutboundRequest → Option BackendResponse

/-- A value handed to `json.NewEncoder(w).Encode`. -/
inductive Encoded where
  /-- The `map[string]interface{}` of the root handler. -/
  | info (message version : String) (endpoints : List String)
  | health (h : HealthResponse)
  /-- The map `{"posts": posts}`. -/
  | posts (ps : List Post)
  | post (p : Post)
  deriving DecidableEq, Repr

/-- One write to the response body. -/
inductive Chunk where
  | bytes (b : String)
  | json (v : Encoded)
  deriving DecidableEq, Repr

/-- The state of an `http.ResponseWriter`. -/
structure ResponseWriter where
  header : List (String × String)
  /-- The status line, once `WriteHeader` or the first write has fixed it. -/
  status : Option Nat
  written : List Chunk
  /-- Whether `WriteHeader` panicked. The panic unwinds the handler: nothing is
  written afterwards and the client gets no response. -/
  panicked : Bool
  deriving DecidableEq, Repr

def ResponseWriter.fresh : ResponseWriter :=
  { header := [], status := none, written := [], panicked := false }

/-- Go `w.Header().Set(k, v)`. -/
def ResponseWriter.setHeader (w : ResponseWriter) (k v : String) : ResponseWriter :=
  { w with header := (k, v) :: w.header.filter (fun e => e.1 != k) }

/-- Go `w.WriteHeader(code)`: only the first call counts, and it panics for a
code below 100 or above 999. -/
def ResponseWriter.writeHeader (w : ResponseWriter) (code : Nat) : ResponseWriter :=
  if w.panicked then w
  else
    match w.status with
    | some _ => w
    | none =>
      if code < 100 ∨ 999 < code then { w with panicked := true }
      else { w with status := some code }

/-- A write to the body; it sends status 200 first when none was sent. It is
not reached after a panic. -/
def ResponseWriter.write (w : ResponseWriter) (c : Chunk) : ResponseWriter :=
  if w.panicked then w
  else { (w.writeHeader 200) with written := w.written ++ [c] }

/-- The status code the client receives from a run that did not panic. -/
def ResponseWriter.statusCode (w : ResponseWriter) : Nat :=
  w.status.getD 200

/-- What one handler run did. -/
structure Outcome where
  w : ResponseWriter
  /-- The requests handed to `client.Do`, in order. -/
  sent : List OutboundRequest
  deriving DecidableEq

abbrev Handler := Env → Request → Option Outcome

def authServiceURL : String := "http://auth-service.auth.svc.cluster.local:3001"

def imageServiceURL : String :=
  "http://image-storage-service.image-storage.svc.cluster.local:3003"

/-! ## `main.go` -/

def proxyToService (env : Env) (w : ResponseWriter) (r : Request) (baseURL path : String) :
    Outcome :=
  let url := baseURL ++ path
  let body := r.body
  if env.newRequestErr r.method url then
    { w := (w.writeHeader 500).write (.bytes "\x7b\"error\":\"Failed to create request\"\x7d"),
      sent := [] }
  else
    let req : OutboundRequest :=
      { method := r.method, url := url, header := copyHeaders r.header ∅, body := body }
    match env.roundTrip req with
    | none =>
      { w := (w.writeHeader 502).write (.bytes "\x7b\"error\":\"Service unavailable\"\x7d"),
        sent := [req] }
    | some resp =>
      { w := (w.writeHeader resp.statusCode).write (.bytes resp.body), sent := [req] }

/-- The block each proxied handler runs for a method it does not allow. -/
def methodNotAllowed (w : ResponseWriter) : Outcome :=
  { w := (w.writeHeader 405).write (.bytes "\x7b\"error\":\"Method not allowed\"\x7d"),
    sent := [] }

def rootHandler : Handler := fun _ _ =>
  let w := ResponseWriter.fresh.setHeader "Content-Type" "application/json"
  some
    { w := w.write (.json (.info "API Service is running" "1.0.0"
        ["/health", "/api/posts", "/register", "/login", "/verify", "/upload", "/images",
          "/images/\x7bfilename\x7d", "/stats"])),
      sent := [] }

def healthHandler : Handler := fun env _ =>
  let w := ResponseWriter.fresh.setHeader "Content-Type" "application/json"
  some
    { w := w.write (.json (.health
        { Status := "healthy", Service := "api-service", Timestamp := env.now })),
      sent := [] }

def postsHandler : Handler := fun _ _ =>
  let w := ResponseWriter.fresh.setHeader "Content-Type" "application/json"
  let posts : List Post :=
    [ { ID := 1, Title := "First Post", Content := "This is the first post" },
      { ID := 2, Title := "Second Post", Content := "This is the second post" } ]
  some { w := w.write (.json (.posts posts)), sent := [] }

def postByIdHandler : Handler := fun _ r =>
  let w := ResponseWriter.fresh.setHeader "Content-Type" "application/json"
  match sliceFrom r.path "/api/posts/".length with
  | none => none
  | some id =>
    let post : Post :=
      { ID := 1, Title := "Post " ++ id, Content := "This is post number " ++ id }
    some { w := w.write (.json (.post post)), sent := [] }

def registerHandler : Handler := fun env r =>
  if r.method != "POST" then some (methodNotAllowed .fresh)
  else some (proxyToService env .fresh r authServiceURL "/register")

def loginHandler : Handler := fun env r =>
  if r.method != "POST" then some (methodNotAllowed .fresh)
  else some (proxyToService env .fresh r authServiceURL "/login")

def verifyHandler : Handler := fun env r =>
  if r.method != "POST" then some (methodNotAllowed .fresh)
  else some (proxyToService env .fresh r authServiceURL "/verify")

def uploadHandler : Handler := fun env r =>
  if r.method != "POST" then some (methodNotAllowed .fresh)
  else some (proxyToService env .fresh r imageServiceURL "/api/upload")

def imagesHandler : Handler := fun env r =>
  if r.method != "GET" then some (methodNotAllowed .fresh)
  else some (proxyToService env .fresh r imageServiceURL "/api/images")

def imageFileHandler : Handler := fun env r =>
  let filename := trimPrefix r.path "/images/"
  if filename == "" then
    some
      { w := (ResponseWriter.fresh.writeHeader 400).write
          (.bytes "\x7b\"error\":\"Filename required\"\x7d"),
        sent := [] }
  else if r.method == "GET" then
    some (proxyToService env .fresh r imageServiceURL ("/api/images/" ++ filename))
  else if r.method == "DELETE" then
    some (proxyToService env .fresh r imageServiceURL ("/api/images/" ++ filename))
  else some (methodNotAllowed .fresh)

def statsHandler : Handler := fun env r =>
  if r.method != "GET" then some (methodNotAllowed .fresh)
  else some (proxyToService env .fresh r imageServiceURL "/api/stats")

/-- The `http.HandleFunc` registrations of `main`, in source order. -/
def routes : List (String × Handler) :=
  [ ("/", rootHandler),
    ("/health", healthHandler),
    ("/api/posts", postsHandler),
    ("/api/posts/", postByIdHandler),
    ("/register", registerHandler),
    ("/login", loginHandler),
    ("/verify", verifyHandler),
    ("/upload", uploadHandler),
    ("/images", imagesHandler),
    ("/images/", imageFileHandler),
    ("/stats", statsHandler) ]

/-! ## The default `ServeMux` -/

/-- Whether a registered pattern matches a path: a pattern ending in a slash
names a subtree and matches the paths that start with it, any other pattern
matches itself only. The patterns of `main` name no host and no method. -/
def patternMatches (pattern path : String) : Bool :=
  if pattern.data.getLast? = some '/' then hasPrefix path pattern
  else decide (path = pattern)

/-- One step of the selection: a matching entry replaces a shorter choice. -/
def pick (path : String) (best : Option (String × Handler)) (e : String × Handler) :
    Option (String × Handler) :=
  if patternMatches e.1 path then
    match best with
    | none => some e
    | some b => if b.1.length < e.1.length then some e else some b
  else best

/-- The handler the mux selects: among the matching patterns the longest. -/
def selectHandler (table : List (String × Handler)) (path : String) :
    Option (String × Handler) :=
  table.foldl (pick path) none

/-- The mux's reply when no pattern matches. -/
def notFound : Outcome :=
  { w := (ResponseWriter.fresh.writeHeader 404).write (.bytes "404 page not found\n"),
    sent := [] }

/-- The mux's reply to the request target `*`, reduced to its status. -/
def badRequest : Outcome :=
  { w := ResponseWriter.fresh.writeHeader 400, sent := [] }

/-- The mux's redirect to a cleaned path (`http.StatusMovedPermanently`),
reduced to its status and its `Location` header. -/
def redirectReply (location : String) : Outcome :=
  { w := (ResponseWriter.fresh.setHeader "Location" location).writeHeader 301, sent := [] }

/-- A request the mux hands to a handler: the handler of the selected pattern
runs, or the mux replies that it found none. `none` is a handler that
panicked in a slice expression. -/
def dispatch (table : List (String × Handler)) (env : Env) (r : Request) : Option Outcome :=
  match selectHandler table r.path with
  | some (_, h) => h env r
  | none => some notFound

/-- One request through a mux holding `table`. The request target `*` is a bad
request. A path that is not in canonical form is answered with a redirect to
its cleaned form, except for the method `CONNECT`. Every other request is
handed to a handler. No registered pattern lacks its trailing slash, so the
redirect that adds one never applies. -/
def serveWith (table : List (String × Handler)) (env : Env) (r : Request) : Option Outcome :=
  if r.path = "*" then some badRequest
  else if r.method != "CONNECT" && cleanPath r.path != r.path then
    some (redirectReply (cleanPath r.path))
  else dispatch table env r

/-- One request through `http.ListenAndServe(addr, nil)` with the routes of
`main`. -/
def serve (env : Env) (r : Request) : Option Outcome :=
  serveWith routes env r

end Gateway

/-! ## `main_20250722175541.go`, the localized variant -/

namespace Localized

open Gateway

/-- The nested map `messages`; a missing entry reads as `""`. -/
def messages (lang key : String) : String :=
  match lang, key with
  | "en", "apiRunning" => "API Service is running"
  | "en", "healthy" => "healthy"
  | "en", "apiService" => "api-service"
  | "en", "methodNotAllowed" => "Method not allowed"
  | "en", "serviceUnavailable" => "Service unavailable"
  | "en", "failedRequest" => "Failed to create request"
  | "en", "filenameRequired" => "Filename required"
  | "ar", "apiRunning" => "خدمة API تعمل"
  | "ar", "healthy" => "صحي"
  | "ar", "apiService" => "خدمة-API"
  | "ar", "methodNotAllowed" => "الطريقة غير مسموح بها"
  | "ar", "serviceUnavailable" => "الخدمة غير متاحة"
  | "ar", "failedRequest" => "فشل في إنشاء الطلب"
  | "ar", "filenameRequired" => "اسم الملف مطلوب"
  | _, _ => ""

def getMessage (req : Request) (key : String) : String :=
  let acceptLanguage := req.header.get "Accept-Language"
  if hasPrefix acceptLanguage "ar" then messages "ar" key
  else messages "en" key

def proxyToService (env : Env) (w : ResponseWriter) (r : Request) (baseURL path : String) :
    Outcome :=
  let url := baseURL ++ path
  let body := r.body
  if env.newRequestErr r.method url then
    { w := (w.writeHeader 500).write (.bytes (sprintfError (getMessage r "failedRequest"))),
      sent := [] }
  else
    let req : OutboundRequest :=
      { method := r.method, url := url, header := copyHeaders r.header ∅, body := body }
    match env.roundTrip req with
    | none =>
      { w := (w.writeHeader 502).write
          (.bytes (sprintfError (getMessage r "serviceUnavailable"))),
        sent := [req] }
    | some resp =>
      { w := (w.writeHeader resp.statusCode).write (.bytes resp.body), sent := [req] }

/-- The block each proxied handler runs for a method it does not allow. -/
def methodNotAllowed (w : ResponseWriter) (r : Request) : Outcome :=
  { w := (w.writeHeader 405).write (.bytes (sprintfError (getMessage r "methodNotAllowed"))),
    sent := [] }

def rootHandler : Handler := fun _ r =>
  let w := ResponseWriter.fresh.setHeader "Content-Type" "application/json"
  some
    { w := w.write (.json (.info (getMessage r "apiRunning") "1.0.0"
        ["/health", "/api/posts", "/register", "/login", "/verify", "/upload", "/images",
          "/images/\x7bfilename\x7d", "/stats"])),
      sent := [] }

def healthHandler : Handler := fun env r =>
  let w := ResponseWriter.fresh.setHeader "Content-Type" "application/json"
  some
    { w := w.write (.json (.health
        { Status := getMessage r "healthy", Service := getMessage r "apiService",
          Timestamp := env.now })),
      sent := [] }

def postsHandler : Handler := fun _ _ =>
  let w := ResponseWriter.fresh.setHeader "Content-Type" "application/json"
  let posts : List Post :=
    [ { ID := 1, Title := "First Post", Content := "This is the first post" },
      { ID := 2, Title := "Second Post", Content := "This is the second post" } ]
  some { w := w.write (.json (.posts posts)), sent := [] }

def postByIdHandler : Handler := fun _ r =>
  let w := ResponseWriter.fresh.setHeader "Content-Type" "application/json"
  match sliceFrom r.path "/api/posts/".length with
  | none => none
  | some id =>
    let post : Post :=
      { ID := 1, Title := "Post " ++ id, Content := "This is post number " ++ id }
    some { w := w.write (.json (.post post)), sent := [] }

def registerHandler : Handler := fun env r =>
  if r.method != "POST" then some (methodNotAllowed .fresh r)
  else some (proxyToService env .fresh r authServiceURL "/register")

def loginHandler : Handler := fun env r =>
  if r.method != "POST" then some (methodNotAllowed .fresh r)
  else some (proxyToService env .fresh r authServiceURL "/login")

def verifyHandler : Handler := fun env r =>
  if r.method != "POST" then some (methodNotAllowed .fresh r)
  else some (proxyToService env .fresh r authServiceURL "/verify")

def uploadHandler : Handler := fun env r =>
  if r.method != "POST" then some (methodNotAllowed .fresh r)
  else some (proxyToService env .fresh r imageServiceURL "/api/upload")

def imagesHandler : Handler := fun env r =>
  if r.method != "GET" then some (methodNotAllowed .fresh r)
  else some (proxyToService env .fresh r imageServiceURL "/api/images")

def imageFileHandler : Handler := fun env r =>
  let filename := trimPrefix r.path "/images/"
  if filename == "" then
    some
      { w := (ResponseWriter.fresh.writeHeader 400).write
          (.bytes (sprintfError (getMessage r "filenameRequired"))),
        sent := [] }
  else if r.method == "GET" then
    some (proxyToService env .fresh r imageServiceURL ("/api/images/" ++ filename))
  else if r.method == "DELETE" then
    some (proxyToService env .fresh r imageServiceURL ("/api/images/" ++ filename))
  else some (methodNotAllowed .fresh r)

def statsHandler : Handler := fun env r =>
  if r.method != "GET" then some (methodNotAllowed .fresh r)
  else some (proxyToService env .fresh r imageServiceURL "/api/stats")

/-- The `http.HandleFunc` registrations of `main`, in source order. -/
def routes : List (String × Handler) :=
  [ ("/", rootHandler),
    ("/health", healthHandler),
    ("/api/posts", postsHandler),
    ("/api/posts/", postByIdHandler),
    ("/register", registerHandler),
    ("/login", loginHandler),
    ("/verify", verifyHandler),
    ("/upload", uploadHandler),
    ("/images", imagesHandler),
    ("/images/", imageFileHandler),
    ("/stats", statsHandler) ]

/-- One request through `http.ListenAndServe(addr, nil)` with the routes of
the localized `main`. -/
def serve (env : Env) (r : Request) : Option Outcome :=
  serveWith routes env r

end Localized

/-! ## The specification's vocabulary -/

namespace Gateway

/-- The proxied routes of the specification's route table. -/
inductive ProxiedRoute where
  | register
  | login
  | verify
  | upload
  | images
  | imageFile (filename : String)
  | stats
  deriving DecidableEq, Repr

/-- The public path of a proxied route. -/
def ProxiedRoute.publicPath : ProxiedRoute → String
  | .register => "/register"
  | .login => "/login"
  | .verify => "/verify"
  | .upload => "/upload"
  | .images => "/images"
  | .imageFile filename => "/images/" ++ filename
  | .stats => "/stats"

/-- The methods a proxied route allows. -/
def ProxiedRoute.allowedMethods : ProxiedRoute → List String
  | .register => ["POST"]
  | .login => ["POST"]
  | .verify => ["POST"]
  | .upload => ["POST"]
  | .images => ["GET"]
  | .imageFile _ => ["GET", "DELETE"]
  | .stats => ["GET"]

/-- The backend base URL of a proxied route. -/
def ProxiedRoute.baseURL : ProxiedRoute → String
  | .register => authServiceURL
  | .login => authServiceURL
  | .verify => authServiceURL
  | _ => imageServiceURL

/-- The backend path of a proxied route. -/
def ProxiedRoute.backendPath : ProxiedRoute → String
  | .register => "/register"
  | .login => "/login"
  | .verify => "/verify"
  | .upload => "/api/upload"
  | .images => "/api/images"
  | .imageFile filename => "/api/images/" ++ filename
  | .stats => "/api/stats"

/-- The backend URL a proxied route resolves to. -/
def ProxiedRoute.target (rt : ProxiedRoute) : String :=
  rt.baseURL ++ rt.backendPath

/-- A route of the table: the filename of `/images/{filename}` is not empty. -/
def ProxiedRoute.WellFormed : ProxiedRoute → Prop
  | .imageFile filename => filename ≠ ""
  | _ => True

instance ProxiedRoute.decWellFormed (rt : ProxiedRoute) : Decidable rt.WellFormed := by
  cases rt <;> unfold ProxiedRoute.WellFormed <;> infer_instance

/-- Whether `getMessage` answers a request in Arabic. -/
def prefersArabic (r : Request) : Bool :=
  hasPrefix (r.header.get "Accept-Language") "ar"

/-- The outcome of a local handler that encoded `v`. -/
def jsonReply (v : Encoded) : Outcome :=
  { w := (ResponseWriter.fresh.setHeader "Content-Type" "application/json").write (.json v),
    sent := [] }

/-- The reply of the `/images/` handler of `main.go` to an empty filename. -/
def filenameRequired : Outcome :=
  { w := (ResponseWriter.fresh.writeHeader 400).write
      (.bytes "\x7b\"error\":\"Filename required\"\x7d"),
    sent := [] }

/-- Two body chunks that are the same, or hold the English and the Arabic text
of one message in the same place. -/
inductive MessageSwap : Chunk → Chunk → Prop
  | same (c : Chunk) : MessageSwap c c
  | error (key : String) :
      MessageSwap (.bytes (sprintfError (Localized.messages "en" key)))
        (.bytes (sprintfError (Localized.messages "ar" key)))
  | info (version : String) (endpoints : List String) :
      MessageSwap (.json (.info (Localized.messages "en" "apiRunning") version endpoints))
        (.json (.info (Localized.messages "ar" "apiRunning") version endpoints))
  | health (t : Int) :
      MessageSwap
        (.json (.health
          { Status := Localized.messages "en" "healthy",
            Service := Localized.messages "en" "apiService", Timestamp := t }))
        (.json (.health
          { Status := Localized.messages "ar" "healthy",
            Service := Localized.messages "ar" "apiService", Timestamp := t }))

/-- Two outcomes that differ at most in message strings. -/
def DifferOnlyInMessages (o o' : Outcome) : Prop :=
  o'.sent = o.sent ∧ o'.w.status = o.w.status ∧ o'.w.header = o.w.header ∧
    o'.w.panicked = o.w.panicked ∧ List.Forall₂ MessageSwap o.w.written o'.w.written

/-- Entries at the same place of two route tables: same pattern, related handlers. -/
def EntryRel (S : String → Handler → Handler → Prop) (a b : String × Handler) : Prop :=
  a.1 = b.1 ∧ S a.1 a.2 b.2

/-- Choices of two selections that went the same way. -/
def ChoiceRel (S : String → Handler → Handler → Prop) :
    Option (String × Handler) → Option (String × Handler) → Prop
  | none, none => True
  | some a, some b => EntryRel S a b
  | _, _ => False

/-- Two handler results that are both present and differ at most in messages. -/
def ResultRel (x y : Option Outcome) : Prop :=
  ∃ o o', x = some o ∧ y = some o' ∧ DifferOnlyInMessages o o'

/-- The fixed local routes of the specification. -/
inductive LocalRoute where
  | root
  | health
  | posts
  deriving DecidableEq, Repr

/-- The public path of a local route. -/
def LocalRoute.path : LocalRoute → String
  | .root => "/"
  | .health => "/health"
  | .posts => "/api/posts"

/-- The endpoint list of the service-metadata document. -/
def endpointList : List String :=
  ["/health", "/api/posts", "/register", "/login", "/verify", "/upload", "/images",
    "/images/\x7bfilename\x7d", "/stats"]

/-- The document of a local route in `main.go` when the clock reads `now`. -/
def LocalRoute.document : LocalRoute → Int → Encoded
  | .root, _ => .info "API Service is running" "1.0.0" endpointList
  | .health, now =>
    .health { Status := "healthy", Service := "api-service", Timestamp := now }
  | .posts, _ =>
    .posts
      [ { ID := 1, Title := "First Post", Content := "This is the first post" },
        { ID := 2, Title := "Second Post", Content := "This is the second post" } ]

/-- The document of a local route in the localized variant, for a request
answered in Arabic (`arabic = true`) or in English. -/
def LocalRoute.localizedDocument : LocalRoute → Bool → Int → Encoded
  | .root, true, _ => .info "خدمة API تعمل" "1.0.0" endpointList
  | .health, true, now =>
    .health { Status := "صحي", Service := "خدمة-API", Timestamp := now }
  | lr, _, now => lr.document now

/-- A cause of an error of `http.NewRequest`: `url.Parse` rejects a URL that
holds an ASCII control character. -/
def hasControlByte (url : String) : Bool :=
  url.data.any fun c => decide (c.toNat < 32) || decide (c.toNat = 127)

/-- The outbound request built from an inbound one for a target URL. -/
def forwarded (r : Request) (url : String) : OutboundRequest :=
  { method := r.method, url := url, header := copyHeaders r.header ∅, body := r.body }

end Gateway

/-! ## Auxiliary lemmas -/

namespace Gateway

theorem foldl_insert_lookup (l : List (Sigma fun _ : String => List String))
    (hl : l.NodupKeys) (acc : Header) (k : String) :
    (l.foldl (fun a e => a.insert e.1 e.2) acc).lookup k =
      (l.dlookup k <|> acc.lookup k) := by
  induction l generalizing acc with
  | nil => simp
  | cons e t ih =>
    rw [List.nodupKeys_cons] at hl
    rw [List.foldl_cons, ih hl.2]
    by_cases hk : k = e.1
    · subst hk
      have : List.dlookup e.1 t = none := List.dlookup_eq_none.mpr hl.1
      rcases e with ⟨a, b⟩
      simp [this, List.dlookup_cons_eq]
    · have hk2 : e.1 ≠ k := fun h => hk h.symm
      rcases e with ⟨a, b⟩
      simp only at hk hk2
      rw [AList.lookup_insert_ne hk, List.dlookup_cons_ne _ _ hk]

theorem copyHeaders_lookup (src : Header) (k : String) :
    (copyHeaders src ∅).lookup k = src.lookup k := by
  unfold copyHeaders
  rw [foldl_insert_lookup _ src.nodupKeys]
  simp [AList.lookup]

theorem pick_isSome (path : String) (best : Option (String × Handler)) (e : String × Handler)
    (h : best.isSome) : (pick path best e).isSome := by
  cases best with
  | none => simp at h
  | some b =>
    simp only [pick]
    split
    · split <;> rfl
    · rfl

theorem foldl_pick_isSome (path : String) (t : List (String × Handler))
    (best : Option (String × Handler)) (h : best.isSome) :
    (t.foldl (pick path) best).isSome := by
  induction t generalizing best with
  | nil => simpa using h
  | cons e t ih => exact ih _ (pick_isSome path best e h)

theorem trimPrefix_append (p f : String) : trimPrefix (p ++ f) p = f := by
  simp [trimPrefix, hasPrefix]

theorem dispatch_proxied_allowed (env : Env) (r : Request) (rt : ProxiedRoute)
    (hwf : rt.WellFormed) (hp : r.path = rt.publicPath) (hm : r.method ∈ rt.allowedMethods) :
    dispatch routes env r = some (proxyToService env .fresh r rt.baseURL rt.backendPath) := by
  cases rt <;>
    simp only [ProxiedRoute.publicPath] at hp <;>
    simp [ProxiedRoute.allowedMethods] at hm <;>
    simp [dispatch, selectHandler, routes, pick, patternMatches, hasPrefix, hp,
      List.isPrefixOf, String.ext_iff] <;>
    rw [if_pos (by decide)]
  case imageFile f =>
    have hf : f ≠ "" := hwf
    simp only [imageFileHandler, hp, trimPrefix_append]
    rcases hm with hm | hm <;>
      simp [hm, hf, ProxiedRoute.baseURL, ProxiedRoute.backendPath]
  all_goals
    simp [registerHandler, loginHandler, verifyHandler, uploadHandler, imagesHandler,
      statsHandler, hm, ProxiedRoute.baseURL, ProxiedRoute.backendPath]

theorem dispatch_proxied_disallowed (env : Env) (r : Request) (rt : ProxiedRoute)
    (hwf : rt.WellFormed) (hp : r.path = rt.publicPath) (hm : r.method ∉ rt.allowedMethods) :
    dispatch routes env r = some (methodNotAllowed .fresh) := by
  cases rt <;>
    simp only [ProxiedRoute.publicPath] at hp <;>
    simp [ProxiedRoute.allowedMethods] at hm <;>
    simp [dispatch, selectHandler, routes, pick, patternMatches, hasPrefix, hp,
      List.isPrefixOf, String.ext_iff] <;>
    rw [if_pos (by decide)]
  case imageFile f =>
    have hf : f ≠ "" := hwf
    simp only [imageFileHandler, hp, trimPrefix_append]
    simp [hm, hf]
  all_goals
    simp [registerHandler, loginHandler, verifyHandler, uploadHandler, imagesHandler,
      statsHandler, hm]

theorem proxyToService_relay (env : Env) (r : Request) (base path : String)
    (resp : BackendResponse) (hreq : env.newRequestErr r.method (base ++ path) = false)
    (hresp : env.roundTrip (forwarded r (base ++ path)) = some resp)
    (hlo : 100 ≤ resp.statusCode) (hhi : resp.statusCode ≤ 999) :
    proxyToService env .fresh r base path =
      { w := { header := [], status := some resp.statusCode, written := [.bytes resp.body],
               panicked := false },
        sent := [forwarded r (base ++ path)] } := by
  simp only [forwarded] at hresp
  have h1 : ¬ resp.statusCode < 100 := by omega
  have h2 : ¬ 999 < resp.statusCode := by omega
  simp [proxyToService, hreq, hresp, forwarded, ResponseWriter.fresh,
    ResponseWriter.writeHeader, ResponseWriter.write, h1, h2]

theorem proxyToService_panics (env : Env) (r : Request) (base path : String)
    (resp : BackendResponse) (hreq : env.newRequestErr r.method (base ++ path) = false)
    (hresp : env.roundTrip (forwarded r (base ++ path)) = some resp)
    (hbad : resp.statusCode < 100 ∨ 999 < resp.statusCode) :
    proxyToService env .fresh r base path =
      { w := { header := [], status := none, written := [], panicked := true },
        sent := [forwarded r (base ++ path)] } := by
  simp only [forwarded] at hresp
  simp [proxyToService, hreq, hresp, forwarded, ResponseWriter.fresh,
    ResponseWriter.writeHeader, ResponseWriter.write, hbad]

theorem proxyToService_failed (env : Env) (r : Request) (base path : String)
    (hreq : env.newRequestErr r.method (base ++ path) = true) :
    proxyToService env .fresh r base path =
      { w := { header := [], status := some 500,
               written := [.bytes "\x7b\"error\":\"Failed to create request\"\x7d"],
               panicked := false },
        sent := [] } := by
  simp [proxyToService, hreq, ResponseWriter.fresh, ResponseWriter.writeHeader,
    ResponseWriter.write]

theorem proxyToService_unavailable (env : Env) (r : Request) (base path : String)
    (hreq : env.newRequestErr r.method (base ++ path) = false)
    (hresp : env.roundTrip (forwarded r (base ++ path)) = none) :
    proxyToService env .fresh r base path =
      { w := { header := [], status := some 502,
               written := [.bytes "\x7b\"error\":\"Service unavailable\"\x7d"],
               panicked := false },
        sent := [forwarded r (base ++ path)] } := by
  simp only [forwarded] at hresp
  simp [proxyToService, hreq, hresp, forwarded, ResponseWriter.fresh,
    ResponseWriter.writeHeader, ResponseWriter.write]

theorem proxyToService_sent (env : Env) (r : Request) (base path : String)
    (out : OutboundRequest) (h : out ∈ (proxyToService env .fresh r base path).sent) :
    out = forwarded r (base ++ path) := by
  unfold proxyToService at h
  simp only at h
  split at h
  · simp at h
  · split at h <;> simpa [forwarded] using h


theorem dispatch_imageFile (env : Env) (r : Request) (f : String) (h : r.path = "/images/" ++ f) :
    dispatch routes env r = imageFileHandler env r := by
  simp [dispatch, selectHandler, routes, pick, patternMatches, hasPrefix, h,
    List.isPrefixOf, String.ext_iff]
  rw [if_pos (by decide)]

theorem sliceFrom_append (p f : String) : sliceFrom (p ++ f) p.length = some f := by
  have h : p.length = p.data.length := rfl
  rw [sliceFrom, h]
  simp

theorem foldl_pick_spec (path : String) (t : List (String × Handler))
    (best : Option (String × Handler)) (x : String × Handler)
    (h : t.foldl (pick path) best = some x) :
    best = some x ∨ (x ∈ t ∧ patternMatches x.1 path = true) := by
  induction t generalizing best with
  | nil => left; simpa using h
  | cons e t ih =>
    rcases ih _ h with h1 | h1
    · unfold pick at h1
      split at h1
      · rename_i hm
        cases best with
        | none => simp at h1; right; simp [← h1, hm]
        | some b =>
          simp only at h1
          split at h1
          · simp at h1; right; simp [← h1, hm]
          · left; exact h1
      · left; exact h1
    · right; exact ⟨List.mem_cons_of_mem _ h1.1, h1.2⟩

theorem hasPrefix_iff (s pre : String) : hasPrefix s pre = true ↔ ∃ t, s = pre ++ t := by
  unfold hasPrefix
  rw [List.isPrefixOf_iff_prefix]
  constructor
  · rintro ⟨t, ht⟩
    exact ⟨⟨t⟩, by apply String.ext; simp [ht]⟩
  · rintro ⟨t, rfl⟩
    exact ⟨t.data, by simp⟩

theorem selectHandler_routes_isSome (path : String) (h0 : hasPrefix path "/" = true) :
    (selectHandler routes path).isSome := by
  unfold selectHandler routes
  rw [List.foldl_cons]
  exact foldl_pick_isSome _ _ _ (by simp [pick, patternMatches, h0])

theorem dispatch_select (env : Env) (r : Request) :
    (hasPrefix r.path "/" = false ∧ dispatch routes env r = some notFound) ∨
    ∃ e ∈ routes, patternMatches e.1 r.path = true ∧ dispatch routes env r = e.2 env r := by
  unfold dispatch
  cases hsel : selectHandler routes r.path with
  | none =>
    left
    refine ⟨?_, rfl⟩
    cases h0 : hasPrefix r.path "/" with
    | false => rfl
    | true =>
      have hsome := selectHandler_routes_isSome r.path h0
      simp [hsel] at hsome
  | some e =>
    right
    rcases foldl_pick_spec _ _ _ _ hsel with h1 | h1
    · simp at h1
    · exact ⟨e, h1.1, h1.2, rfl⟩

theorem handler_cases (env : Env) (r : Request) (P : Outcome → Prop)
    (hjson : ∀ v, P (jsonReply v)) (h405 : P (methodNotAllowed .fresh))
    (h400 : P filenameRequired)
    (hproxy : ∀ base path, P (proxyToService env .fresh r base path))
    (e : String × Handler) (he : e ∈ routes) (hm : patternMatches e.1 r.path = true) :
    ∃ o, e.2 env r = some o ∧ P o := by
  simp only [routes, List.mem_cons, List.mem_singleton, List.not_mem_nil, or_false] at he
  rcases he with he | he | he | he | he | he | he | he | he | he | he <;> subst he <;>
    simp only [rootHandler, healthHandler, postsHandler, postByIdHandler, registerHandler,
      loginHandler, verifyHandler, uploadHandler, imagesHandler, imageFileHandler,
      statsHandler]
  · exact ⟨_, rfl, hjson _⟩
  · exact ⟨_, rfl, hjson _⟩
  · exact ⟨_, rfl, hjson _⟩
  · have hp : hasPrefix r.path "/api/posts/" = true := by
      simpa [patternMatches] using hm
    obtain ⟨t, ht⟩ := (hasPrefix_iff _ _).1 hp
    rw [ht, sliceFrom_append]
    exact ⟨_, rfl, hjson _⟩
  all_goals
    split
    · first
      | exact ⟨_, rfl, h405⟩
      | exact ⟨_, rfl, h400⟩
    · first
      | exact ⟨_, rfl, hproxy _ _⟩
      | (split
         · exact ⟨_, rfl, hproxy _ _⟩
         · split
           · exact ⟨_, rfl, hproxy _ _⟩
           · exact ⟨_, rfl, h405⟩)

theorem dispatch_inv (env : Env) (r : Request) (P : Outcome → Prop)
    (hnf : hasPrefix r.path "/" = false → P notFound)
    (hjson : ∀ v, P (jsonReply v)) (h405 : P (methodNotAllowed .fresh))
    (h400 : P filenameRequired)
    (hproxy : ∀ base path, P (proxyToService env .fresh r base path)) :
    ∃ o, dispatch routes env r = some o ∧ P o := by
  rcases dispatch_select env r with ⟨h0, hs⟩ | ⟨e, he, hm, hs⟩
  · exact ⟨_, hs, hnf h0⟩
  · rw [hs]
    exact handler_cases env r P hjson h405 h400 hproxy e he hm

theorem canonical_ne_star (p : String) (hc : cleanPath p = p) : p ≠ "*" := by
  intro h
  subst h
  exact absurd hc (by decide)

theorem serveWith_canonical (table : List (String × Handler)) (env : Env) (r : Request)
    (hc : cleanPath r.path = r.path) : serveWith table env r = dispatch table env r := by
  simp [serveWith, hc, canonical_ne_star r.path hc]

theorem serve_canonical (env : Env) (r : Request) (hc : cleanPath r.path = r.path) :
    serve env r = dispatch routes env r :=
  serveWith_canonical routes env r hc

theorem serve_inv (env : Env) (r : Request) (P : Outcome → Prop)
    (hbad : P badRequest) (hred : ∀ loc, P (redirectReply loc)) (hnf : P notFound)
    (hjson : ∀ v, P (jsonReply v)) (h405 : P (methodNotAllowed .fresh))
    (h400 : P filenameRequired)
    (hproxy : ∀ base path, P (proxyToService env .fresh r base path)) :
    ∃ o, serve env r = some o ∧ P o := by
  unfold serve serveWith
  split
  · exact ⟨_, rfl, hbad⟩
  · split
    · exact ⟨_, rfl, hred _⟩
    · exact dispatch_inv env r P (fun _ => hnf) hjson h405 h400 hproxy

theorem pick_rel (S : String → Handler → Handler → Prop) (path : String)
    (best best' : Option (String × Handler)) (e e' : String × Handler)
    (hb : ChoiceRel S best best') (he : EntryRel S e e') :
    ChoiceRel S (pick path best e) (pick path best' e') := by
  unfold pick
  rw [← he.1]
  by_cases hm : patternMatches e.1 path = true
  · simp only [hm, if_true]
    cases best with
    | none =>
      cases best' with
      | none => exact he
      | some b' => exact hb.elim
    | some b =>
      cases best' with
      | none => exact hb.elim
      | some b' =>
        have hb' : EntryRel S b b' := hb
        simp only
        rw [← hb'.1]
        by_cases hl : b.1.length < e.1.length
        · simp only [hl, if_true]; exact he
        · simp only [hl, if_false]; exact hb'
  · simp only [hm]; exact hb

theorem foldl_pick_rel (S : String → Handler → Handler → Prop) (path : String)
    (t t' : List (String × Handler)) (h : List.Forall₂ (EntryRel S) t t')
    (best best' : Option (String × Handler)) (hb : ChoiceRel S best best') :
    ChoiceRel S (t.foldl (pick path) best) (t'.foldl (pick path) best') := by
  induction h generalizing best best' with
  | nil => exact hb
  | cons he _ ih => exact ih _ _ (pick_rel S path best best' _ _ hb he)

theorem routes_rel (S : String → Handler → Handler → Prop)
    (h1 : S "/" rootHandler Localized.rootHandler)
    (h2 : S "/health" healthHandler Localized.healthHandler)
    (h3 : S "/api/posts" postsHandler Localized.postsHandler)
    (h4 : S "/api/posts/" postByIdHandler Localized.postByIdHandler)
    (h5 : S "/register" registerHandler Localized.registerHandler)
    (h6 : S "/login" loginHandler Localized.loginHandler)
    (h7 : S "/verify" verifyHandler Localized.verifyHandler)
    (h8 : S "/upload" uploadHandler Localized.uploadHandler)
    (h9 : S "/images" imagesHandler Localized.imagesHandler)
    (h10 : S "/images/" imageFileHandler Localized.imageFileHandler)
    (h11 : S "/stats" statsHandler Localized.statsHandler) :
    List.Forall₂ (EntryRel S) routes Localized.routes := by
  simp only [routes, Localized.routes, List.forall₂_cons, List.Forall₂.nil, and_true, EntryRel,
    true_and]
  exact ⟨h1, h2, h3, h4, h5, h6, h7, h8, h9, h10, h11⟩

theorem getMessage_en (r : Request) (h : prefersArabic r = false) (key : String) :
    Localized.getMessage r key = Localized.messages "en" key := by
  unfold prefersArabic at h
  simp [Localized.getMessage, h]

theorem getMessage_ar (r : Request) (h : prefersArabic r = true) (key : String) :
    Localized.getMessage r key = Localized.messages "ar" key := by
  unfold prefersArabic at h
  simp [Localized.getMessage, h]

theorem proxyToService_en (env : Env) (w : ResponseWriter) (r : Request) (base path : String)
    (h : prefersArabic r = false) :
    Localized.proxyToService env w r base path = proxyToService env w r base path := by
  simp only [Localized.proxyToService, proxyToService, getMessage_en r h]
  rfl

theorem methodNotAllowed_en (w : ResponseWriter) (r : Request) (h : prefersArabic r = false) :
    Localized.methodNotAllowed w r = methodNotAllowed w := by
  simp only [Localized.methodNotAllowed, methodNotAllowed, getMessage_en r h]
  rfl

theorem dispatch_en (env : Env) (r : Request) (h : prefersArabic r = false) :
    dispatch Localized.routes env r = dispatch routes env r := by
  have hrel := foldl_pick_rel (fun _ g l => l env r = g env r) r.path routes Localized.routes
    (routes_rel _
      (by simp only [Localized.rootHandler, rootHandler, getMessage_en r h]; rfl)
      (by simp only [Localized.healthHandler, healthHandler, getMessage_en r h]; rfl)
      rfl rfl
      (by simp only [Localized.registerHandler, registerHandler, proxyToService_en _ _ _ _ _ h,
            methodNotAllowed_en _ _ h])
      (by simp only [Localized.loginHandler, loginHandler, proxyToService_en _ _ _ _ _ h,
            methodNotAllowed_en _ _ h])
      (by simp only [Localized.verifyHandler, verifyHandler, proxyToService_en _ _ _ _ _ h,
            methodNotAllowed_en _ _ h])
      (by simp only [Localized.uploadHandler, uploadHandler, proxyToService_en _ _ _ _ _ h,
            methodNotAllowed_en _ _ h])
      (by simp only [Localized.imagesHandler, imagesHandler, proxyToService_en _ _ _ _ _ h,
            methodNotAllowed_en _ _ h])
      (by simp only [Localized.imageFileHandler, imageFileHandler,
            proxyToService_en _ _ _ _ _ h, methodNotAllowed_en _ _ h, getMessage_en r h]; rfl)
      (by simp only [Localized.statsHandler, statsHandler, proxyToService_en _ _ _ _ _ h,
            methodNotAllowed_en _ _ h]))
    none none trivial
  unfold dispatch selectHandler
  revert hrel
  cases List.foldl (pick r.path) none routes <;>
    cases List.foldl (pick r.path) none Localized.routes <;>
    simp only [ChoiceRel, EntryRel] <;> intro hrel
  all_goals first | trivial | exact hrel.elim | exact hrel.2


theorem differ_refl (o : Outcome) : DifferOnlyInMessages o o :=
  ⟨rfl, rfl, rfl, rfl, List.forall₂_same.2 fun c _ => MessageSwap.same c⟩

theorem proxyToService_ar (env : Env) (r : Request) (base path : String)
    (h : prefersArabic r = true) :
    DifferOnlyInMessages (proxyToService env .fresh r base path)
      (Localized.proxyToService env .fresh r base path) := by
  simp only [Localized.proxyToService, proxyToService, getMessage_ar r h]
  split
  · exact ⟨rfl, rfl, rfl, rfl, List.Forall₂.cons (MessageSwap.error "failedRequest") .nil⟩
  · split
    · exact ⟨rfl, rfl, rfl, rfl, List.Forall₂.cons (MessageSwap.error "serviceUnavailable") .nil⟩
    · exact differ_refl _

theorem methodNotAllowed_ar (r : Request) (h : prefersArabic r = true) :
    DifferOnlyInMessages (methodNotAllowed .fresh) (Localized.methodNotAllowed .fresh r) := by
  simp only [Localized.methodNotAllowed, methodNotAllowed, getMessage_ar r h]
  exact ⟨rfl, rfl, rfl, rfl, List.Forall₂.cons (MessageSwap.error "methodNotAllowed") .nil⟩

theorem dispatch_ar (env : Env) (r : Request) (h : prefersArabic r = true) :
    ResultRel (dispatch routes env r) (dispatch Localized.routes env r) := by
  have hmna := methodNotAllowed_ar r h
  have hpx := fun base path => proxyToService_ar env r base path h
  have guarded : ∀ (c : Bool) (base path : String),
      ResultRel
        (if c then some (methodNotAllowed .fresh)
          else some (proxyToService env .fresh r base path))
        (if c then some (Localized.methodNotAllowed .fresh r)
          else some (Localized.proxyToService env .fresh r base path)) := by
    intro c base path
    cases c
    · exact ⟨_, _, rfl, rfl, hpx _ _⟩
    · exact ⟨_, _, rfl, rfl, hmna⟩
  have hrel := foldl_pick_rel
    (fun pat g l => patternMatches pat r.path = true → ResultRel (g env r) (l env r))
    r.path routes Localized.routes
    (routes_rel _
      (fun _ => ⟨_, _, rfl, rfl, by
        simp only [getMessage_ar r h]
        exact ⟨rfl, rfl, rfl, rfl, List.Forall₂.cons (MessageSwap.info _ _) .nil⟩⟩)
      (fun _ => ⟨_, _, rfl, rfl, by
        simp only [getMessage_ar r h]
        exact ⟨rfl, rfl, rfl, rfl, List.Forall₂.cons (MessageSwap.health _) .nil⟩⟩)
      (fun _ => ⟨_, _, rfl, rfl, differ_refl _⟩)
      (by
        intro hm
        have hp : hasPrefix r.path "/api/posts/" = true := by
          simpa [patternMatches] using hm
        obtain ⟨t, ht⟩ := (hasPrefix_iff _ _).1 hp
        simp only [postByIdHandler, Localized.postByIdHandler, ht, sliceFrom_append]
        exact ⟨_, _, rfl, rfl, differ_refl _⟩)
      (fun _ => guarded _ _ _) (fun _ => guarded _ _ _) (fun _ => guarded _ _ _)
      (fun _ => guarded _ _ _) (fun _ => guarded _ _ _)
      (by
        intro _
        simp only [imageFileHandler, Localized.imageFileHandler, getMessage_ar r h]
        split
        · exact ⟨_, _, rfl, rfl, rfl, rfl, rfl, rfl,
            List.Forall₂.cons (MessageSwap.error "filenameRequired") .nil⟩
        · split
          · exact ⟨_, _, rfl, rfl, hpx _ _⟩
          · split
            · exact ⟨_, _, rfl, rfl, hpx _ _⟩
            · exact ⟨_, _, rfl, rfl, hmna⟩)
      (fun _ => guarded _ _ _))
    none none trivial
  unfold dispatch selectHandler
  revert hrel
  cases hsel : List.foldl (pick r.path) none routes <;>
    cases List.foldl (pick r.path) none Localized.routes <;>
    simp only [ChoiceRel, EntryRel] <;> intro hrel
  · exact ⟨_, _, rfl, rfl, differ_refl _⟩
  · exact hrel.elim
  · exact hrel.elim
  · rcases foldl_pick_spec _ _ _ _ hsel with h1 | h1
    · simp at h1
    · exact hrel.2 h1.2

theorem dispatch_local (env : Env) (r : Request) (lr : LocalRoute) (h : r.path = lr.path) :
    dispatch routes env r = some (jsonReply (lr.document env.now)) := by
  cases lr <;> simp only [LocalRoute.path] at h <;>
    simp [dispatch, selectHandler, routes, pick, patternMatches, hasPrefix, h,
      List.isPrefixOf, String.ext_iff]
  · rfl
  all_goals
    rw [if_pos (by decide)]
    rfl

theorem localized_dispatch_local (env : Env) (r : Request) (lr : LocalRoute)
    (h : r.path = lr.path) :
    dispatch Localized.routes env r =
      some (jsonReply (lr.localizedDocument (prefersArabic r) env.now)) := by
  cases hl : prefersArabic r
  · rw [dispatch_en env r hl, dispatch_local env r lr h]
    cases lr <;> rfl
  · cases lr <;> simp only [LocalRoute.path] at h <;>
      simp [dispatch, selectHandler, Localized.routes, pick, patternMatches,
        hasPrefix, h, List.isPrefixOf, String.ext_iff]
    · simp only [Localized.rootHandler, getMessage_ar r hl]; rfl
    · rw [if_pos (by decide)]
      simp only [Localized.healthHandler, getMessage_ar r hl]; rfl
    · rw [if_pos (by decide)]
      rfl

theorem localized_dispatch_disallowed (env : Env) (r : Request) (rt : ProxiedRoute)
    (hwf : rt.WellFormed) (hp : r.path = rt.publicPath) (hm : r.method ∉ rt.allowedMethods) :
    dispatch Localized.routes env r = some (Localized.methodNotAllowed .fresh r) := by
  cases rt <;>
    simp only [ProxiedRoute.publicPath] at hp <;>
    simp [ProxiedRoute.allowedMethods] at hm <;>
    simp [dispatch, selectHandler, Localized.routes, pick, patternMatches,
      hasPrefix, hp, List.isPrefixOf, String.ext_iff] <;>
    rw [if_pos (by decide)]
  case imageFile f =>
    have hf : f ≠ "" := hwf
    simp only [Localized.imageFileHandler, hp, trimPrefix_append]
    simp [hm, hf]
  all_goals
    simp [Localized.registerHandler, Localized.loginHandler, Localized.verifyHandler,
      Localized.uploadHandler, Localized.imagesHandler, Localized.statsHandler, hm]

theorem localized_serve_canonical (env : Env) (r : Request)
    (hc : cleanPath r.path = r.path) :
    Localized.serve env r = dispatch Localized.routes env r :=
  serveWith_canonical Localized.routes env r hc

theorem serve_en (env : Env) (r : Request) (h : prefersArabic r = false) :
    Localized.serve env r = serve env r := by
  unfold Localized.serve serve serveWith
  rw [dispatch_en env r h]

theorem serve_ar (env : Env) (r : Request) (h : prefersArabic r = true) :
    ResultRel (serve env r) (Localized.serve env r) := by
  unfold Localized.serve serve serveWith
  split
  · exact ⟨_, _, rfl, rfl, differ_refl _⟩
  · split
    · exact ⟨_, _, rfl, rfl, differ_refl _⟩
    · exact dispatch_ar env r h

end Gateway

namespace Gateway

theorem proxyToService_sent_one (env : Env) (r : Request) (base path : String)
    (hreq : env.newRequestErr r.method (base ++ path) = false) :
    (proxyToService env .fresh r base path).sent = [forwarded r (base ++ path)] := by
  cases hresp : env.roundTrip (forwarded r (base ++ path)) with
  | none => rw [proxyToService_unavailable env r base path hreq hresp]
  | some resp =>
    by_cases hv : 100 ≤ resp.statusCode ∧ resp.statusCode ≤ 999
    · rw [proxyToService_relay env r base path resp hreq hresp hv.1 hv.2]
    · rw [proxyToService_panics env r base path resp hreq hresp (by omega)]

end Gateway

/-! ## The claims -/

namespace Gateway

/-- Claim C1 as amended: on every proxied route called with an allowed method,
when the outbound request is built and `client.Do` returns a response with
status `s` and body `b`, the request was sent once; if `s` lies in the range
100 to 999 that `WriteHeader` accepts, the gateway answers with status exactly
`s` and writes exactly the bytes `b`; otherwise the handler panics in
`WriteHeader` and writes nothing. -/
theorem proxied_response_relayed (env : Env) (r : Request) (rt : ProxiedRoute) (s : Nat)
    (b : String) (hwf : rt.WellFormed) (hp : r.path = rt.publicPath)
    (hc : cleanPath r.path = r.path) (hm : r.method ∈ rt.allowedMethods)
    (hreq : env.newRequestErr r.method rt.target = false)
    (hresp : env.roundTrip (forwarded r rt.target) = some ⟨s, b⟩) :
    ∃ o, serve env r = some o ∧ o.sent = [forwarded r rt.target] ∧
      if 100 ≤ s ∧ s ≤ 999 then
        o.w.panicked = false ∧ o.w.statusCode = s ∧ o.w.written = [.bytes b]
      else o.w.panicked = true ∧ o.w.written = [] := by
  refine ⟨_, (serve_canonical env r hc).trans (dispatch_proxied_allowed env r rt hwf hp hm), ?_⟩
  by_cases hv : 100 ≤ s ∧ s ≤ 999
  · rw [proxyToService_relay env r _ _ _ hreq hresp hv.1 hv.2, if_pos hv]
    exact ⟨rfl, rfl, rfl, rfl⟩
  · have hbad : s < 100 ∨ 999 < s := by omega
    rw [proxyToService_panics env r _ _ _ hreq hresp hbad, if_neg hv]
    exact ⟨rfl, rfl, rfl⟩

/-- Witness of C1: a backend answering 201 with body `{"ok":true}` on
`POST /register`. -/
theorem proxied_response_relayed_witness :
    ProxiedRoute.register.WellFormed ∧ "POST" ∈ ProxiedRoute.register.allowedMethods ∧
    cleanPath "/register" = "/register" ∧
    ∃ o, serve ⟨0, fun _ _ => false, fun _ => some ⟨201, "\x7b\"ok\":true\x7d"⟩⟩
        ⟨"POST", "/register", ∅, "x"⟩ = some o ∧
      o.sent = [forwarded ⟨"POST", "/register", ∅, "x"⟩ ProxiedRoute.register.target] ∧
      if 100 ≤ 201 ∧ 201 ≤ 999 then
        o.w.panicked = false ∧ o.w.statusCode = 201 ∧
          o.w.written = [.bytes "\x7b\"ok\":true\x7d"]
      else o.w.panicked = true ∧ o.w.written = [] :=
  ⟨trivial, by decide, by decide,
    proxied_response_relayed _ _ .register _ _ trivial rfl (by decide) (by decide) rfl rfl⟩

/-- Counterexample to C1 as stated: when `client.Do` returns status 99 on
`POST /register`, the handler panics in `WriteHeader`; the gateway answers
neither with status 99 nor with the body. -/
theorem backend_status_99_panics :
    (serve ⟨0, fun _ _ => false, fun _ => some ⟨99, "body"⟩⟩
        ⟨"POST", "/register", ∅, ""⟩).map
      (fun o => (o.w.panicked, o.w.status, o.w.written)) = some (true, none, []) := by
  decide

/-- Claim C2 as amended: on every proxied route whose path is in canonical form,
called with an allowed method, the target URL is the backend base URL of the
route followed by the backend path of the route table. When `http.NewRequest`
accepts that URL, exactly one outbound request is built, with the method and
the body of the inbound request and that URL. When it rejects the URL, the
gateway answers with status 500 and body
`{"error":"Failed to create request"}` and builds no outbound request. -/
theorem outbound_request_shape (env : Env) (r : Request) (rt : ProxiedRoute)
    (hwf : rt.WellFormed) (hp : r.path = rt.publicPath) (hc : cleanPath r.path = r.path)
    (hm : r.method ∈ rt.allowedMethods) :
    ∃ o, serve env r = some o ∧
      if env.newRequestErr r.method (rt.baseURL ++ rt.backendPath) = true then
        o.sent = [] ∧ o.w.statusCode = 500 ∧
          o.w.written = [.bytes "\x7b\"error\":\"Failed to create request\"\x7d"]
      else
        ∃ out, o.sent = [out] ∧ out.method = r.method ∧ out.body = r.body ∧
          out.url = rt.baseURL ++ rt.backendPath := by
  refine ⟨_, (serve_canonical env r hc).trans (dispatch_proxied_allowed env r rt hwf hp hm), ?_⟩
  cases hreq : env.newRequestErr r.method (rt.baseURL ++ rt.backendPath) with
  | true =>
    rw [proxyToService_failed env r _ _ hreq, if_pos rfl]
    exact ⟨rfl, rfl, rfl⟩
  | false =>
    rw [if_neg (by simp)]
    exact ⟨forwarded r rt.target, proxyToService_sent_one env r _ _ hreq, rfl, rfl, rfl⟩

/-- Witness of C2: `DELETE /images/a.png` goes to the image service under
`/api/images/a.png`. -/
theorem outbound_request_shape_witness :
    (ProxiedRoute.imageFile "a.png").WellFormed ∧
    "DELETE" ∈ (ProxiedRoute.imageFile "a.png").allowedMethods ∧
    cleanPath "/images/a.png" = "/images/a.png" ∧
    ∃ o, serve ⟨0, fun _ _ => false, fun _ => none⟩
        ⟨"DELETE", "/images/a.png", ∅, "payload"⟩ = some o ∧
      ∃ out, o.sent = [out] ∧ out.method = "DELETE" ∧ out.body = "payload" ∧
        out.url =
          "http://image-storage-service.image-storage.svc.cluster.local:3003" ++
            "/api/images/a.png" :=
  ⟨by decide, by decide, by decide,
    (outbound_request_shape ⟨0, fun _ _ => false, fun _ => none⟩
      ⟨"DELETE", "/images/a.png", ∅, "payload"⟩ (.imageFile "a.png") (by decide) rfl
      (by decide) (by decide)).imp fun _ h => ⟨h.1, h.2⟩⟩

/-- Counterexample to C2 as stated: `GET /images/a%0Ab` has a non-empty filename
and an allowed method, but `http.NewRequest` rejects the URL with the line
feed, so the gateway answers 500 and builds no outbound request; and
`GET /images/a//b` is answered by the mux with a redirect to `/images/a/b`,
so nothing is forwarded either. -/
theorem outbound_request_not_built :
    (serve ⟨0, fun _ url => hasControlByte url, fun _ => none⟩
        ⟨"GET", "/images/a\nb", ∅, ""⟩).map
      (fun o => (o.w.statusCode, o.w.written, o.sent)) =
        some (500, [.bytes "\x7b\"error\":\"Failed to create request\"\x7d"], []) ∧
    (serve ⟨0, fun _ _ => false, fun _ => none⟩ ⟨"GET", "/images/a//b", ∅, ""⟩).map
      (fun o => (o.w.header.lookup "Location", o.sent)) = some (some "/images/a/b", []) := by
  constructor <;> decide

/-- Claim C3: every outbound request the gateway hands to a backend carries,
under every key, exactly the value list the inbound request holds under that
key: no inbound header is dropped or changed, and none is added. -/
theorem inbound_headers_copied (env : Env) (r : Request) (o : Outcome) (out : OutboundRequest)
    (hs : serve env r = some o) (hout : out ∈ o.sent) (k : String) :
    out.header.lookup k = r.header.lookup k := by
  obtain ⟨o', ho', hP⟩ := serve_inv env r (fun o => ∀ out ∈ o.sent, out = forwarded r out.url)
    (fun _ h => by simp [badRequest] at h)
    (fun _ _ h => by simp [redirectReply] at h)
    (fun _ h => by simp [notFound] at h)
    (fun _ _ h => by simp [jsonReply] at h)
    (fun _ h => by simp [methodNotAllowed] at h)
    (fun _ h => by simp [filenameRequired] at h)
    (fun base path out h => by rw [proxyToService_sent env r base path out h]; rfl)
  rw [hs] at ho'
  cases ho'
  rw [hP out hout]
  exact copyHeaders_lookup r.header k

/-- Witness of C3: the header `X-Test: 1` of a `GET /stats` request reaches the
backend. -/
theorem inbound_headers_copied_witness :
    ∃ o out,
      serve ⟨0, fun _ _ => false, fun _ => none⟩
        ⟨"GET", "/stats", (∅ : Header).insert "X-Test" ["1"], ""⟩ = some o ∧
      out ∈ o.sent ∧ out.header.lookup "X-Test" = some ["1"] :=
  ⟨_, forwarded ⟨"GET", "/stats", (∅ : Header).insert "X-Test" ["1"], ""⟩
      ("http://image-storage-service.image-storage.svc.cluster.local:3003" ++ "/api/stats"),
    rfl, List.mem_singleton.2 rfl,
    (inbound_headers_copied ⟨0, fun _ _ => false, fun _ => none⟩
      ⟨"GET", "/stats", (∅ : Header).insert "X-Test" ["1"], ""⟩ _ _ rfl
      (List.mem_singleton.2 rfl) "X-Test").trans rfl⟩

/-- Claim C4 as amended: on every proxied route called with a method outside
its allowed set nothing is forwarded and the status is 405, in both variants.
A route is called when the mux hands it the request, whose path then is in
canonical form.
In `main.go` the body is exactly `{"error":"Method not allowed"}`; in the
localized variant it is that body for a request not answered in Arabic and
the Arabic message otherwise. -/
theorem disallowed_method_rejected (env : Env) (r : Request) (rt : ProxiedRoute)
    (hwf : rt.WellFormed) (hp : r.path = rt.publicPath) (hc : cleanPath r.path = r.path)
    (hm : r.method ∉ rt.allowedMethods) :
    (∃ o, serve env r = some o ∧ o.w.statusCode = 405 ∧
      o.w.written = [.bytes "\x7b\"error\":\"Method not allowed\"\x7d"] ∧ o.sent = []) ∧
    (∃ o, Localized.serve env r = some o ∧ o.w.statusCode = 405 ∧
      o.w.written =
        [.bytes (if prefersArabic r then "\x7b\"error\":\"الطريقة غير مسموح بها\"\x7d"
          else "\x7b\"error\":\"Method not allowed\"\x7d")] ∧
      o.sent = []) := by
  refine ⟨⟨_, (serve_canonical env r hc).trans
      (dispatch_proxied_disallowed env r rt hwf hp hm), rfl, rfl, rfl⟩,
    ⟨_, (localized_serve_canonical env r hc).trans
      (localized_dispatch_disallowed env r rt hwf hp hm), rfl, ?_, rfl⟩⟩
  cases hl : prefersArabic r
  · simp only [Localized.methodNotAllowed, getMessage_en r hl]; rfl
  · simp only [Localized.methodNotAllowed, getMessage_ar r hl]; rfl

/-- Witness of C4: `PUT /images/a.png` without an `Accept-Language` header. -/
theorem disallowed_method_rejected_witness :
    (ProxiedRoute.imageFile "a.png").WellFormed ∧
    "PUT" ∉ (ProxiedRoute.imageFile "a.png").allowedMethods ∧
    cleanPath "/images/a.png" = "/images/a.png" ∧
    (∃ o, serve ⟨0, fun _ _ => false, fun _ => none⟩ ⟨"PUT", "/images/a.png", ∅, ""⟩ =
        some o ∧ o.w.statusCode = 405 ∧
      o.w.written = [.bytes "\x7b\"error\":\"Method not allowed\"\x7d"] ∧ o.sent = []) ∧
    (∃ o, Localized.serve ⟨0, fun _ _ => false, fun _ => none⟩
        ⟨"PUT", "/images/a.png", ∅, ""⟩ = some o ∧ o.w.statusCode = 405 ∧
      o.w.written = [.bytes "\x7b\"error\":\"Method not allowed\"\x7d"] ∧ o.sent = []) :=
  ⟨by decide, by decide, by decide,
    disallowed_method_rejected ⟨0, fun _ _ => false, fun _ => none⟩
      ⟨"PUT", "/images/a.png", ∅, ""⟩ (.imageFile "a.png") (by decide) rfl (by decide)
      (by decide)⟩

/-- Counterexample to C4 as stated: the localized variant answers
`GET /register` with `Accept-Language: ar` by status 405 and the Arabic body,
not by `{"error":"Method not allowed"}`. -/
theorem localized_405_body_arabic :
    (Localized.serve ⟨0, fun _ _ => false, fun _ => none⟩
        ⟨"GET", "/register", (∅ : Header).insert "Accept-Language" ["ar"], ""⟩).map
      (fun o => (o.w.statusCode, o.w.written)) =
        some (405, [.bytes "\x7b\"error\":\"الطريقة غير مسموح بها\"\x7d"]) ∧
    (Localized.serve ⟨0, fun _ _ => false, fun _ => none⟩
        ⟨"GET", "/register", (∅ : Header).insert "Accept-Language" ["ar"], ""⟩).map
      (fun o => o.w.written) ≠
        some [.bytes "\x7b\"error\":\"Method not allowed\"\x7d"] := by
  constructor
  · rfl
  · decide

/-- Claim C5: a request whose path is exactly `/images/` is answered with
status 400 and body exactly `{"error":"Filename required"}`, whatever its
method, and nothing is forwarded. -/
theorem empty_filename_rejected (env : Env) (r : Request) (hp : r.path = "/images/") :
    ∃ o, serve env r = some o ∧ o.w.statusCode = 400 ∧
      o.w.written = [.bytes "\x7b\"error\":\"Filename required\"\x7d"] ∧ o.sent = [] := by
  have h : r.path = "/images/" ++ "" := by simpa using hp
  refine ⟨filenameRequired, ?_, rfl, rfl, rfl⟩
  rw [serve_canonical env r (by rw [hp]; decide), dispatch_imageFile env r "" h]
  simp only [imageFileHandler, h, trimPrefix_append]
  rfl

/-- Witness of C5: `PUT /images/`, a method the route does not allow, still
gets 400. -/
theorem empty_filename_rejected_witness :
    ∃ o, serve ⟨0, fun _ _ => false, fun _ => none⟩ ⟨"PUT", "/images/", ∅, ""⟩ = some o ∧
      o.w.statusCode = 400 ∧
      o.w.written = [.bytes "\x7b\"error\":\"Filename required\"\x7d"] ∧ o.sent = [] :=
  empty_filename_rejected ⟨0, fun _ _ => false, fun _ => none⟩ ⟨"PUT", "/images/", ∅, ""⟩ rfl

/-- Claim C6: on every proxied route called with an allowed method, when the
outbound call fails with a transport error the gateway answers with status 502
and body exactly `{"error":"Service unavailable"}`, having handed exactly one
request to the client. A request is accepted by a route when the mux hands it
to the route, so its path is in canonical form. -/
theorem transport_error_bad_gateway (env : Env) (r : Request) (rt : ProxiedRoute)
    (hwf : rt.WellFormed) (hp : r.path = rt.publicPath) (hc : cleanPath r.path = r.path)
    (hm : r.method ∈ rt.allowedMethods)
    (hreq : env.newRequestErr r.method rt.target = false)
    (herr : env.roundTrip (forwarded r rt.target) = none) :
    ∃ o, serve env r = some o ∧ o.w.statusCode = 502 ∧
      o.w.written = [.bytes "\x7b\"error\":\"Service unavailable\"\x7d"] ∧
      o.sent = [forwarded r rt.target] := by
  refine ⟨_, (serve_canonical env r hc).trans (dispatch_proxied_allowed env r rt hwf hp hm), ?_⟩
  rw [proxyToService_unavailable env r _ _ hreq herr]
  exact ⟨rfl, rfl, rfl⟩

/-- Witness of C6: `POST /login` against an unreachable auth service. -/
theorem transport_error_bad_gateway_witness :
    ProxiedRoute.login.WellFormed ∧ "POST" ∈ ProxiedRoute.login.allowedMethods ∧
    cleanPath "/login" = "/login" ∧
    ∃ o, serve ⟨0, fun _ _ => false, fun _ => none⟩ ⟨"POST", "/login", ∅, "cred"⟩ = some o ∧
      o.w.statusCode = 502 ∧
      o.w.written = [.bytes "\x7b\"error\":\"Service unavailable\"\x7d"] ∧
      o.sent = [forwarded ⟨"POST", "/login", ∅, "cred"⟩ ProxiedRoute.login.target] :=
  ⟨trivial, by decide, by decide,
    transport_error_bad_gateway ⟨0, fun _ _ => false, fun _ => none⟩
      ⟨"POST", "/login", ∅, "cred"⟩ .login trivial rfl (by decide) (by decide) rfl rfl⟩

/-- Claim C8 as amended: a request to a local route is answered with status 200
and the document of that route. In `main.go` two requests to one local route
get the same answer exactly when the route is not `/health` or the clock reads
the same second: the documents of `/` and `/api/posts` are constant, the one
of `/health` holds the current time. In the localized variant they get the
same answer exactly when, in addition, the route is `/api/posts` or both
requests are answered in the same language. -/
theorem local_route_documents (lr : LocalRoute) (env₁ env₂ : Env) (r₁ r₂ : Request)
    (h₁ : r₁.path = lr.path) (h₂ : r₂.path = lr.path) :
    (∃ o, serve env₁ r₁ = some o ∧ o.w.statusCode = 200 ∧
      o.w.written = [.json (lr.document env₁.now)] ∧ o.sent = []) ∧
    (serve env₁ r₁ = serve env₂ r₂ ↔ (lr = .health → env₁.now = env₂.now)) ∧
    (∃ o, Localized.serve env₁ r₁ = some o ∧ o.w.statusCode = 200 ∧
      o.w.written = [.json (lr.localizedDocument (prefersArabic r₁) env₁.now)] ∧
      o.sent = []) ∧
    (Localized.serve env₁ r₁ = Localized.serve env₂ r₂ ↔
      (lr = .health → env₁.now = env₂.now) ∧
        (lr ≠ .posts → prefersArabic r₁ = prefersArabic r₂)) := by
  have inj : ∀ d d' : Encoded, some (jsonReply d) = some (jsonReply d') ↔ d = d' := by
    intro d d'
    constructor
    · intro h
      have h' := congrArg (fun x => x.map fun o => o.w.written) h
      simpa [jsonReply, ResponseWriter.write, ResponseWriter.setHeader,
        ResponseWriter.fresh] using h'
    · rintro rfl; rfl
  have hc₁ : cleanPath r₁.path = r₁.path := by rw [h₁]; cases lr <;> decide
  have hc₂ : cleanPath r₂.path = r₂.path := by rw [h₂]; cases lr <;> decide
  have e₁ := (serve_canonical env₁ r₁ hc₁).trans (dispatch_local env₁ r₁ lr h₁)
  have e₂ := (serve_canonical env₂ r₂ hc₂).trans (dispatch_local env₂ r₂ lr h₂)
  have l₁ := (localized_serve_canonical env₁ r₁ hc₁).trans
    (localized_dispatch_local env₁ r₁ lr h₁)
  have l₂ := (localized_serve_canonical env₂ r₂ hc₂).trans
    (localized_dispatch_local env₂ r₂ lr h₂)
  refine ⟨⟨_, e₁, rfl, rfl, rfl⟩, ?_, ⟨_, l₁, rfl, rfl, rfl⟩, ?_⟩
  · rw [e₁, e₂, inj]
    cases lr <;> simp [LocalRoute.document]
  · rw [l₁, l₂, inj]
    cases lr <;> cases prefersArabic r₁ <;> cases prefersArabic r₂ <;>
      simp [LocalRoute.document, LocalRoute.localizedDocument]

/-- Witness of C8: two `GET /` requests at different times with different
headers get the same answer from `main.go`. -/
theorem local_route_documents_witness :
    serve ⟨0, fun _ _ => false, fun _ => none⟩ ⟨"GET", "/", ∅, ""⟩ =
      serve ⟨86400, fun _ _ => false, fun _ => none⟩
        ⟨"GET", "/", (∅ : Header).insert "Accept-Language" ["ar"], ""⟩ :=
  (local_route_documents .root ⟨0, fun _ _ => false, fun _ => none⟩
    ⟨86400, fun _ _ => false, fun _ => none⟩ ⟨"GET", "/", ∅, ""⟩
    ⟨"GET", "/", (∅ : Header).insert "Accept-Language" ["ar"], ""⟩ rfl rfl).2.1.2
    (fun h => by cases h)

/-- Counterexample to C8 as stated: two `GET /health` requests one second
apart get different bodies from `main.go`, and two `GET /` requests that
differ in `Accept-Language` get different bodies from the localized variant. -/
theorem local_bodies_vary :
    (serve ⟨0, fun _ _ => false, fun _ => none⟩ ⟨"GET", "/health", ∅, ""⟩).map
        (fun o => o.w.written) ≠
      (serve ⟨1, fun _ _ => false, fun _ => none⟩ ⟨"GET", "/health", ∅, ""⟩).map
        (fun o => o.w.written) ∧
    (Localized.serve ⟨0, fun _ _ => false, fun _ => none⟩ ⟨"GET", "/", ∅, ""⟩).map
        (fun o => o.w.written) ≠
      (Localized.serve ⟨0, fun _ _ => false, fun _ => none⟩
        ⟨"GET", "/", (∅ : Header).insert "Accept-Language" ["ar"], ""⟩).map
        (fun o => o.w.written) := by
  constructor <;> decide

/-- Claim C9: for a request whose `Accept-Language` header is absent or does not
start with `ar`, `getMessage` returns the English message of every key, each
of the seven English messages is the literal `main.go` uses, and
`proxyToService` and the whole gateway of the localized variant produce the
same outcome as those of `main.go`. For a request whose header starts with
`ar`, `getMessage` returns the Arabic message and the two gateways send the
same outbound requests and answer with the same status, differing at most in
message strings. -/
theorem localized_variant_agrees (env : Env) (r : Request) :
    (r.header.lookup "Accept-Language" = none → prefersArabic r = false) ∧
    (prefersArabic r = false →
      (∀ key, Localized.getMessage r key = Localized.messages "en" key) ∧
      (∀ w base path,
        Localized.proxyToService env w r base path = proxyToService env w r base path) ∧
      Localized.serve env r = serve env r) ∧
    (prefersArabic r = true →
      (∀ key, Localized.getMessage r key = Localized.messages "ar" key) ∧
      ∃ o o', serve env r = some o ∧ Localized.serve env r = some o' ∧
        DifferOnlyInMessages o o') ∧
    Localized.messages "en" "apiRunning" = "API Service is running" ∧
    Localized.messages "en" "healthy" = "healthy" ∧
    Localized.messages "en" "apiService" = "api-service" ∧
    Localized.messages "en" "methodNotAllowed" = "Method not allowed" ∧
    Localized.messages "en" "serviceUnavailable" = "Service unavailable" ∧
    Localized.messages "en" "failedRequest" = "Failed to create request" ∧
    Localized.messages "en" "filenameRequired" = "Filename required" := by
  refine ⟨?_, ?_, ?_, rfl, rfl, rfl, rfl, rfl, rfl, rfl⟩
  · intro h
    simp [prefersArabic, Header.get, h, hasPrefix]
  · intro h
    exact ⟨getMessage_en r h, fun w base path => proxyToService_en env w r base path h,
      serve_en env r h⟩
  · intro h
    exact ⟨getMessage_ar r h, serve_ar env r h⟩

/-- Witness of C9: `PUT /upload` without `Accept-Language` is answered alike by
both variants; with `Accept-Language: ar-EG` the status agrees. -/
theorem localized_variant_agrees_witness :
    prefersArabic ⟨"PUT", "/upload", ∅, ""⟩ = false ∧
    Localized.serve ⟨0, fun _ _ => false, fun _ => none⟩ ⟨"PUT", "/upload", ∅, ""⟩ =
      serve ⟨0, fun _ _ => false, fun _ => none⟩ ⟨"PUT", "/upload", ∅, ""⟩ ∧
    prefersArabic
      ⟨"PUT", "/upload", (∅ : Header).insert "Accept-Language" ["ar-EG"], ""⟩ = true ∧
    ∃ o o',
      serve ⟨0, fun _ _ => false, fun _ => none⟩
        ⟨"PUT", "/upload", (∅ : Header).insert "Accept-Language" ["ar-EG"], ""⟩ = some o ∧
      Localized.serve ⟨0, fun _ _ => false, fun _ => none⟩
        ⟨"PUT", "/upload", (∅ : Header).insert "Accept-Language" ["ar-EG"], ""⟩ = some o' ∧
      DifferOnlyInMessages o o' :=
  ⟨rfl,
    ((localized_variant_agrees ⟨0, fun _ _ => false, fun _ => none⟩
      ⟨"PUT", "/upload", ∅, ""⟩).2.1 rfl).2.2,
    rfl,
    ((localized_variant_agrees ⟨0, fun _ _ => false, fun _ => none⟩
      ⟨"PUT", "/upload", (∅ : Header).insert "Accept-Language" ["ar-EG"], ""⟩).2.2.1 rfl).2⟩

end Gateway
